import Mathlib

/-!
Shallow embedding of the octarine-navis-plugin conversion pipeline
(`octarine_navis_plugin/objects.py` and `octarine_navis_plugin/__init__.py`).

Numeric values are modelled as rationals; the `float32` casts performed by
the source are structural (no rounding is relevant to any property proved
here) and are modelled as the identity.  A `NaN` entry of a numpy array is
modelled by the sentinel constructor `FVal.nan`.

External collaborators (the `navis` colour services, `navis` conversion
helpers, the uuid generator and the default connector layout) are bundled in
the `Ext` structure and passed explicitly: the pipeline calls them exactly
where the source does.
-/

set_option autoImplicit false

namespace ONP

/-- One entry of a numpy float array: a number or NaN. -/
inductive FVal where
  | num (q : ℚ)
  | nan
  deriving DecidableEq, Repr

/-- A row of a float array (a 3d point or an RGBA row, possibly with NaNs). -/
abbrev FRow := List FVal

/-- A purely numeric row (coordinates or a colour before NaN padding). -/
abbrev QRow := List ℚ

/-- A flat colour, e.g. `[r, g, b]` or `[r, g, b, a]`. -/
abbrev Color := List ℚ

/-- Map a numeric row into a float row. -/
def toF (r : QRow) : FRow := r.map FVal.num

/-- A row of `w` NaN entries (`[[None] * w]` cast to float). -/
def nanRow (w : Nat) : FRow := List.replicate w FVal.nan

/-- Row width of a rectangular block (`t.shape[1]`). -/
def blockWidth (t : List QRow) : Nat := (t.headD []).length

/-- Coordinate assembly of `skeleton2gfx`: each per-segment coordinate block
gets one 3-wide NaN break row appended, then all blocks are stacked
(`np.vstack([np.append(t, [[None] * 3], axis=0) for t in coords])`). -/
def flattenSegments (blocks : List (List QRow)) : List FRow :=
  (blocks.map (fun t => t.map toF ++ [nanRow 3])).flatten

/-- Per-vertex colour assembly of `skeleton2gfx`: each per-segment colour
block gets one NaN break row of the block's own width appended
(`np.vstack([np.append(t, [[None] * t.shape[1]], axis=0) for t in vertex_colors])`). -/
def flattenVertexColors (blocks : List (List QRow)) : List FRow :=
  (blocks.map (fun t => t.map toF ++ [nanRow (blockWidth t)])).flatten

/-- Coordinate interleaving of `connectors2gfx` in "lines" mode:
`np.hstack((pos, tn_coords, np.full(pos.shape, np.nan))).reshape((len(pos) * 3, 3))`
pairs each connector position with its node position and a NaN break row. -/
def connectorLinesCoords (pos tn : List QRow) : List FRow :=
  ((pos.zip tn).map (fun pt => [toF pt.1, toF pt.2, nanRow 3])).flatten

/-- A skeleton node row: id, coordinates and the per-node radius column. -/
structure Node where
  node_id : Nat
  x : ℚ
  y : ℚ
  z : ℚ
  radius : ℚ
  deriving DecidableEq, Repr

/-- A connector-table row: type tag, position, owning node. -/
structure Connector where
  cn_type : Nat
  x : ℚ
  y : ℚ
  z : ℚ
  node_id : Nat
  deriving DecidableEq, Repr

/-- `neuron.soma_radius`: either the name of a per-node attribute (the model
has a single such attribute, the node's `radius` column) or a scalar. -/
inductive SomaRadius where
  | attr
  | scalar (r : ℚ)
  deriving DecidableEq, Repr

/-- The data of a `navis.TreeNeuron` used by the converters. -/
structure TreeData where
  nodes : List Node
  segments : List (List Nat)
  soma : List (Option Nat)
  somaRadius : SomaRadius
  deriving DecidableEq, Repr

/-- The data of a `navis.MeshNeuron` used by the converters. -/
structure MeshData where
  verts : List QRow
  faces : List (Nat × Nat × Nat)
  deriving DecidableEq, Repr

/-- The data of a `navis.Dotprops` used by the converters.  `derived` models
the result of the external `x.to_skeleton(scale_vec)` call. -/
structure DotpropData where
  points : List QRow
  derived : TreeData
  deriving DecidableEq, Repr

/-- The data of a `navis.VoxelNeuron` used by the converters. -/
structure VoxelData where
  spacing : QRow
  offset : QRow
  deriving DecidableEq, Repr

/-- The tagged union of neuron variants dispatched on by `neuron2gfx`.
`unknown` stands for any other `BaseNeuron` subtype (warned about and
skipped). -/
inductive NeuronData where
  | tree (t : TreeData)
  | mesh (m : MeshData)
  | dotprops (d : DotpropData)
  | voxels (v : VoxelData)
  | unknown (tyName : String)
  deriving DecidableEq, Repr

/-- A neuron: identifier, optional name, variant data, connector table. -/
structure Neuron where
  id : Nat
  name : Option String
  data : NeuronData
  connectors : List Connector
  deriving DecidableEq, Repr

/-- `isinstance(neuron, navis.MeshNeuron)`. -/
def isMeshN (n : Neuron) : Bool :=
  match n.data with
  | .mesh _ => true
  | _ => false

/-- A colour map entry: one flat colour per neuron, or per-vertex rows. -/
inductive NColor where
  | flat (c : Color)
  | perVertex (rows : List Color)
  deriving DecidableEq, Repr

/-- Geometry payload of a produced visual.  `line` keeps the coordinate data
that was passed to `oc.visuals.lines2gfx` — `none` when the call received no
positional data. -/
inductive Geometry where
  | line (coords : Option (List FRow)) (linewidth : ℚ)
  | points (pos : List QRow) (size : ℚ)
  | sphere (radius : ℚ) (cx : ℚ) (cy : ℚ) (cz : ℚ)
  | mesh
  | volume (spacing : QRow) (offset : QRow)
  deriving DecidableEq, Repr

/-- A produced pygfx visual together with the custom attributes the plugin
sets on it (`_object_type`, `_neuron_part`, `_neuron_id`, `_name`,
`_object_id`, `_object`).  Freshly constructed gfx objects carry none of
them: `object_id` starts as `none` and is set by the tagging step. -/
structure Visual where
  geometry : Geometry
  color : NColor
  object_type : String
  neuron_part : String
  neuron_id : Nat
  name : String
  object_id : Option Nat
  source : Option Neuron
  deriving DecidableEq, Repr

/-- An untagged visual fresh from an `oc.visuals.*` constructor. -/
def mkVisual (g : Geometry) (c : NColor) : Visual :=
  { geometry := g, color := c, object_type := "", neuron_part := "",
    neuron_id := 0, name := "", object_id := none, source := none }

/-- `oc.visuals.lines2gfx`: builds a line visual from the data it is given
(`none` when the source calls it without the positional argument). -/
def lines2gfx (data : Option (List FRow)) (linewidth : ℚ) (color : NColor) : Visual :=
  mkVisual (.line data linewidth) color

/-- `oc.visuals.points2gfx`. -/
def points2gfx (pos : List QRow) (color : NColor) (size : ℚ) : Visual :=
  mkVisual (.points pos size) color

/-- The attribute-assignment block each converter runs on a fresh visual. -/
def tagVisual (v : Visual) (part : String) (n : Neuron) (oid : Nat) : Visual :=
  { v with object_type := "neuron", neuron_part := part, neuron_id := n.id,
           name := n.name.getD (toString n.id), object_id := some oid,
           source := some n }

/-- The connector layout (`navis.config.default_connector_colors` after the
`synapse_layout` override): render mode, optional point size and the
per-type colour entries. -/
structure Layout where
  display : String
  size : Option ℚ
  colors : List (Nat × Color)
  deriving DecidableEq, Repr

/-- A caller-supplied `synapse_layout` override: `dict.update` semantics on
the keys `display`, `size` and the per-type entries. -/
structure LayoutOverride where
  display : Option String
  size : Option ℚ
  colors : List (Nat × Color)
  deriving DecidableEq, Repr

/-- `cn_lay = navis.config.default_connector_colors.copy();
cn_lay.update(kwargs.get("synapse_layout", {}))`. -/
def mergeLayout (d : Layout) (o : LayoutOverride) : Layout :=
  { display := o.display.getD d.display,
    size := match o.size with | some s => some s | none => d.size,
    colors := o.colors ++ d.colors }

/-- Assoc-list lookup, first match wins. -/
def lookupColor (l : List (Nat × Color)) (j : Nat) : Option Color :=
  (l.find? (fun p => p.1 == j)).map (fun p => p.2)

/-- The `cn_colors` argument: a dict mapping connector types to colours, the
string `"neuron"`, some other truthy colour value, or None/falsy. -/
inductive CnColors where
  | cdict (m : List (Nat × Color))
  | neuronColor
  | flat (c : Color)
  | nonec
  deriving DecidableEq, Repr

/-- The keyword arguments of the pipeline that the converters consult. -/
structure Kwargs where
  connectors : Bool
  connectors_only : Bool
  soma : Bool
  radius : Bool
  random_ids : Bool
  color_by : Option String
  shade_by : Option String
  palette : Option String
  synapse_layout : LayoutOverride
  cn_colors : CnColors
  linewidth : ℚ
  deriving DecidableEq, Repr

/-- External collaborators of the pipeline: the `navis` colour services
(`prepare_colormap`, `vertex_colors` and its alpha variant used for
`shade_by`), `navis.conversion.tree2meshneuron`, the uuid generator
(`uuid.uuid4()`, one fresh value per loop iteration, modelled as a stream
indexed by the iteration) and the default connector layout. -/
structure Ext where
  prepareColormap : List Neuron → Kwargs → List NColor
  vertexColors : List Neuron → Kwargs → List NColor
  alphaColors : List Neuron → Kwargs → List (List Color)
  tree2mesh : TreeData → MeshData
  uuids : Nat → Nat
  defaultLayout : Layout

/-- Recursive `Except`-valued map (the monadic loops of the source written
out structurally). -/
def mapME {α β : Type} (f : α → Except String β) : List α → Except String (List β)
  | [] => .ok []
  | a :: l =>
    match f a with
    | .error e => .error e
    | .ok b =>
      match mapME f l with
      | .error e => .error e
      | .ok bs => .ok (b :: bs)

/-- `pandas.Series.unique`: distinct values in order of first occurrence. -/
def dedupFirstAux (seen : List Nat) : List Nat → List Nat
  | [] => []
  | j :: rest =>
    if seen.contains j then dedupFirstAux seen rest
    else j :: dedupFirstAux (j :: seen) rest

/-- `neuron.connectors.type.unique()`. -/
def dedupFirst (l : List Nat) : List Nat := dedupFirstAux [] l

/-- `nodes.set_index("node_id").loc[nid]` — a failed lookup is a KeyError. -/
def lookupNode (nodes : List Node) (nid : Nat) : Except String Node :=
  match nodes.find? (fun n => n.node_id == nid) with
  | some n => .ok n
  | none => .error ("KeyError: " ++ toString nid)

/-- `neuron.nodes` — only tree neurons carry a node table. -/
def nodesOf (n : Neuron) : Except String (List Node) :=
  match n.data with
  | .tree t => .ok t.nodes
  | _ => .error "AttributeError: nodes"

/-- Connector colour precedence of `connectors2gfx`:
`cn_colors` dict entry, else `"neuron"` selects the neuron's own colour,
else a truthy `cn_colors` value, else the layout's per-type colour, with
`(0.1, 0.1, 0.1)` as final default.  The external `eval_color`
normalisation is the identity in this model. -/
def resolveCnColor (cn : CnColors) (lay : Layout) (ncolor : NColor) (j : Nat) : NColor :=
  match cn with
  | .cdict m => .flat ((lookupColor m j).getD ((lookupColor lay.colors j).getD [1/10, 1/10, 1/10]))
  | .neuronColor => ncolor
  | .flat c => .flat c
  | .nonec => .flat ((lookupColor lay.colors j).getD [1/10, 1/10, 1/10])

/-- The body of the per-type loop of `connectors2gfx`, before tagging:
positions of the connectors of type `j`, then the mode dispatch.  In
"lines" mode the source computes the interleaved coordinates but calls
`oc.visuals.lines2gfx(linewidth=..., color=color)` without passing them, so
the line visual is built with no coordinate data. -/
def connectorVisual (kw : Kwargs) (neuron : Neuron) (ncolor : NColor) (lay : Layout)
    (j : Nat) : Except String Visual :=
  let color := resolveCnColor kw.cn_colors lay ncolor j
  let this_cn := neuron.connectors.filter (fun c => c.cn_type == j)
  let pos : List QRow := this_cn.map (fun c => [c.x, c.y, c.z])
  if lay.display == "circles" || isMeshN neuron then
    .ok (points2gfx pos color (lay.size.getD 100))
  else if lay.display == "lines" then
    match nodesOf neuron with
    | .error e => .error e
    | .ok nodes =>
      match mapME (fun c => lookupNode nodes c.node_id) this_cn with
      | .error e => .error e
      | .ok tns =>
        let tn_coords := tns.map (fun n => [n.x, n.y, n.z])
        let _coords := connectorLinesCoords pos tn_coords
        .ok (lines2gfx none kw.linewidth color)
  else
    .error ("Unknown connector display mode " ++ lay.display)

/-- `connectors2gfx`: one visual per distinct connector type, each tagged
with part "connectors" and the shared `object_id`. -/
def connectors2gfx (ext : Ext) (kw : Kwargs) (neuron : Neuron) (ncolor : NColor)
    (oid : Nat) : Except String (List Visual) :=
  let lay := mergeLayout ext.defaultLayout kw.synapse_layout
  mapME
    (fun j =>
      match connectorVisual kw neuron ncolor lay j with
      | .error e => .error e
      | .ok v => .ok (tagVisual v "connectors" neuron oid))
    (dedupFirst (neuron.connectors.map (fun c => c.cn_type)))

/-- One segment's coordinate rows, models
`navis.plotting.plot_utils.segments_to_coords` (external): each node id of
the segment is looked up in the node table. -/
def segCoordsOf (nodes : List Node) (seg : List Nat) : Except String (List QRow) :=
  mapME (fun nid =>
    match lookupNode nodes nid with
    | .error e => .error e
    | .ok n => .ok [n.x, n.y, n.z]) seg

/-- One segment's per-vertex colour rows, models the `node_colors` path of
`segments_to_coords` (external): node colours are indexed by the node's
position in the node table. -/
def segColorsOf (nodes : List Node) (rows : List Color) (seg : List Nat) :
    Except String (List Color) :=
  mapME (fun nid =>
    match nodes.findIdx? (fun n => n.node_id == nid) with
    | some i =>
      match rows.get? i with
      | some c => .ok c
      | none => .error "IndexError: node colors"
    | none => .error ("KeyError: " ++ toString nid)) seg

/-- The soma-count warning of `skeleton2gfx`. -/
def somaWarnMsg (n : Neuron) (count : Nat) : String :=
  "Neuron " ++ toString n.id ++ " appears to have " ++ toString count ++
    " somas. That does not look right and we will ignore them for plotting."

/-- `r = getattr(n, neuron.soma_radius) if isinstance(neuron.soma_radius, str)
else neuron.soma_radius`. -/
def somaR (sr : SomaRadius) (n : Node) : ℚ :=
  match sr with
  | .attr => n.radius
  | .scalar q => q

/-- One soma sphere of `skeleton2gfx`, before tagging: resolve the soma
colour (the vertex colour of the soma node when per-vertex colouring is
active, else the flat colour), look the node up, and build a sphere of
radius `r * 2` positioned at the node's coordinates. -/
def somaVisual (t : TreeData) (ncolor : NColor) (s : Nat) : Except String Visual :=
  let somaColor : Except String NColor :=
    match ncolor with
    | .perVertex rows =>
      match t.nodes.findIdx? (fun n => n.node_id == s) with
      | some ix =>
        match rows.get? ix with
        | some c => .ok (.flat c)
        | none => .error "IndexError: soma color"
      | none => .error "IndexError: soma node"
    | .flat c => .ok (.flat c)
  match somaColor with
  | .error e => .error e
  | .ok sc =>
    match lookupNode t.nodes s with
    | .error e => .error e
    | .ok n => .ok (mkVisual (.sphere (somaR t.somaRadius n * 2) n.x n.y n.z) sc)

/-- The neurite line of `skeleton2gfx`, before tagging: assemble the
per-segment coordinate blocks, flatten them with NaN break rows, and in the
per-vertex case also assemble and flatten the vertex colours — which the
source computes but does not pass on (`lines2gfx` receives `neuron_color`). -/
def skeletonLine (kw : Kwargs) (t : TreeData) (ncolor : NColor) : Except String Visual :=
  match ncolor with
  | .flat _ =>
    match mapME (segCoordsOf t.nodes) t.segments with
    | .error e => .error e
    | .ok blocks => .ok (lines2gfx (some (flattenSegments blocks)) kw.linewidth ncolor)
  | .perVertex rows =>
    match mapME (segCoordsOf t.nodes) t.segments with
    | .error e => .error e
    | .ok blocks =>
      match mapME (segColorsOf t.nodes rows) t.segments with
      | .error e => .error e
      | .ok colorBlocks =>
        let _vertex_colors := flattenVertexColors colorBlocks
        .ok (lines2gfx (some (flattenSegments blocks)) kw.linewidth ncolor)

/-- The soma block of `skeleton2gfx`: nothing when soma rendering is off;
a warning and no sphere when 10 or more somas are reported; otherwise one
tagged sphere per non-None reported soma. -/
def skeletonSomas (kw : Kwargs) (neuron : Neuron) (t : TreeData) (ncolor : NColor)
    (oid : Nat) : Except String (List Visual × List String) :=
  if kw.soma then
    if 10 ≤ t.soma.length then
      .ok ([], [somaWarnMsg neuron t.soma.length])
    else
      match mapME (fun s =>
          match somaVisual t ncolor s with
          | .error e => .error e
          | .ok v => .ok (tagVisual v "soma" neuron oid)) (t.soma.reduceOption) with
      | .error e => .error e
      | .ok somas => .ok (somas, [])
  else
    .ok ([], [])

/-- `skeleton2gfx`: degenerate skeletons produce no visual and a warning;
otherwise the neurite line is built and appended first, then the soma
block. -/
def skeleton2gfx (kw : Kwargs) (neuron : Neuron) (t : TreeData) (ncolor : NColor)
    (oid : Nat) : Except String (List Visual × List String) :=
  if t.nodes.isEmpty then
    .ok ([], ["Skipping TreeNeuron w/o nodes: " ++ toString neuron.id])
  else if t.nodes.length == 1 then
    .ok ([], ["Skipping single-node TreeNeuron: " ++ toString neuron.id])
  else if kw.connectors_only then
    .ok ([], [])
  else
    match skeletonLine kw t ncolor with
    | .error e => .error e
    | .ok lv =>
      match skeletonSomas kw neuron t ncolor oid with
      | .error e => .error e
      | .ok (somas, ws) => .ok (tagVisual lv "neurites" neuron oid :: somas, ws)

/-- `mesh2gfx`: empty meshes produce nothing, otherwise one tagged mesh
visual (`oc.visuals.mesh2gfx` is external). -/
def mesh2gfx (neuron : Neuron) (m : MeshData) (ncolor : NColor) (oid : Nat) : List Visual :=
  if m.faces.isEmpty then []
  else [tagVisual (mkVisual .mesh ncolor) "neurites" neuron oid]

/-- `voxel2gfx`: one tagged volume visual (`oc.visuals.volume2gfx` is
external), carrying the neuron's spacing and offset. -/
def voxel2gfx (neuron : Neuron) (v : VoxelData) (ncolor : NColor) (oid : Nat) : List Visual :=
  [tagVisual (mkVisual (.volume v.spacing v.offset) ncolor) "neurites" neuron oid]

/-- `dotprop2gfx`: empty point sets produce nothing, otherwise the derived
skeleton (external `to_skeleton`) is converted by `skeleton2gfx`. -/
def dotprop2gfx (kw : Kwargs) (neuron : Neuron) (d : DotpropData) (ncolor : NColor)
    (oid : Nat) : Except String (List Visual × List String) :=
  if d.points.isEmpty then .ok ([], [])
  else
    skeleton2gfx kw { neuron with data := .tree d.derived } d.derived ncolor oid

/-- The `radius=True` pre-step of the `neuron2gfx` loop: a tree neuron is
converted to a mesh neuron (external `tree2meshneuron`) that keeps the
original's connectors. -/
def applyRadius (ext : Ext) (kw : Kwargs) (n : Neuron) : Neuron :=
  if kw.radius then
    match n.data with
    | .tree t => { n with data := .mesh (ext.tree2mesh t) }
    | _ => n
  else n

/-- The variant dispatch of the `neuron2gfx` loop body (skipped entirely
when only connectors are requested; unknown variants are skipped with a
warning). -/
def dispatchNeuron (kw : Kwargs) (neuron : Neuron) (c : NColor) (oid : Nat) :
    Except String (List Visual × List String) :=
  if kw.connectors_only then .ok ([], [])
  else
    match neuron.data with
    | .tree t => skeleton2gfx kw neuron t c oid
    | .mesh m => .ok (mesh2gfx neuron m c oid, [])
    | .dotprops d => dotprop2gfx kw neuron d c oid
    | .voxels v => .ok (voxel2gfx neuron v c oid, [])
    | .unknown ty => .ok ([], ["Skipping neuron of type " ++ ty])

/-- One iteration of the `neuron2gfx` loop: optional radius conversion,
variant dispatch, then the connector converter when connectors were
requested and the neuron has some — with the same resolved colour and
`object_id`. -/
def convertOne (ext : Ext) (kw : Kwargs) (neuron0 : Neuron) (c : NColor) (oid : Nat) :
    Except String (List Visual × List String) :=
  let neuron := applyRadius ext kw neuron0
  match dispatchNeuron kw neuron c oid with
  | .error e => .error e
  | .ok (v1, w1) =>
    if (kw.connectors || kw.connectors_only) && !neuron.connectors.isEmpty then
      match connectors2gfx ext kw neuron c oid with
      | .error e => .error e
      | .ok v2 => .ok (v1 ++ v2, w1)
    else
      .ok (v1, w1)

/-- `c[:, 3] = a[:, 3]` when the row already has an alpha slot, else
`np.insert(c, 3, a[:, 3], axis=1)`. -/
def setAlphaRow (c : Color) (a : ℚ) : Color :=
  if c.length == 4 then c.set 3 a else c.take 3 ++ [a] ++ c.drop 3

/-- The `shade_by` merge for one colormap entry: flat colours are tiled to
the vertex count of the alpha map, then the alpha column is overwritten
from the shading map. -/
def mergeShadeOne (c : NColor) (arows : List Color) : NColor :=
  let rows : List Color :=
    match c with
    | .flat fc => List.replicate arows.length fc
    | .perVertex rs => rs
  .perVertex ((rows.zip arows).map (fun p => setAlphaRow p.1 (p.2.getD 3 0)))

/-- `zip(colormap, alphamap)` over the whole batch. -/
def mergeShade (cm : List NColor) (am : List (List Color)) : List NColor :=
  (cm.zip am).map (fun p => mergeShadeOne p.1 p.2)

/-- Python truthiness of the `palette` argument. -/
def truthyPalette : Option String → Bool
  | none => false
  | some s => !s.isEmpty

/-- The colormap-resolution block of `neuron2gfx`: `vertex_colors` when
`color_by` is given, else `prepare_colormap`; then the `shade_by` merge. -/
def resolveColormap (ext : Ext) (x : List Neuron) (kw : Kwargs) : List NColor :=
  let cm := if kw.color_by.isSome then ext.vertexColors x kw else ext.prepareColormap x kw
  if kw.shade_by.isSome then mergeShade cm (ext.alphaColors x kw) else cm

/-- The error message of the mandatory-palette check. -/
def paletteErrMsg : String :=
  "Must provide palette (e.g. viridis) argument if using color_by"

/-- The `for i, neuron in enumerate(x)` loop of `neuron2gfx`:
`colormap[i]` is an IndexError when out of range, each iteration draws a
fresh uuid, and results are concatenated in input order. -/
def neuronLoop (ext : Ext) (kw : Kwargs) (colormap : List NColor) :
    Nat → List Neuron → Except String (List Visual × List String)
  | _, [] => .ok ([], [])
  | i, n :: rest =>
    match colormap.get? i with
    | none => .error "IndexError: colormap"
    | some c =>
      match convertOne ext kw n c (ext.uuids i) with
      | .error e => .error e
      | .ok (v1, w1) =>
        match neuronLoop ext kw colormap (i + 1) rest with
        | .error e => .error e
        | .ok (v2, w2) => .ok (v1 ++ v2, w1 ++ w2)

/-- `neuron2gfx`: the mandatory-palette check runs first; only then is the
colormap resolved over the whole collection and the per-neuron loop run. -/
def neuron2gfx (ext : Ext) (x : List Neuron) (kw : Kwargs) :
    Except String (List Visual × List String) :=
  if kw.color_by.isSome && !truthyPalette kw.palette then
    .error paletteErrMsg
  else
    neuronLoop ext kw (resolveColormap ext x kw) 0 x

/-- The input of `add_neurons` after the skeletor shortcut: a single
neuron, a neuron list, or anything else (rejected). -/
inductive AddInput where
  | neuron (n : Neuron)
  | nlist (ns : List Neuron)
  | other (tyName : String)
  deriving DecidableEq, Repr

/-- Modelled from the spec: the type predicate `is_neuron` lives in the
repository's `utils` module, which is not part of the provided sources; per
the spec's viewer-registration boundary it recognises a single neuron. -/
def is_neuron (x : AddInput) : Bool :=
  match x with
  | .neuron _ => true
  | _ => false

/-- Modelled from the spec: the type predicate `is_neuronlist` lives in the
repository's `utils` module, which is not part of the provided sources; per
the spec's viewer-registration boundary it recognises a neuron collection. -/
def is_neuronlist (x : AddInput) : Bool :=
  match x with
  | .nlist _ => true
  | _ => false

/-- `navis.NeuronList.is_degenerated` (external): the collection contains
duplicate identifiers. -/
def hasDupIds : List Neuron → Bool
  | [] => false
  | n :: rest => rest.any (fun m => m.id == n.id) || hasDupIds rest

/-- The duplicate-identifier warning of `add_neurons`. -/
def dupWarnMsg : String := "NeuronList contains duplicate IDs."

/-- `add_neurons` (the viewer method, scene insertion aside): single
neurons pass, collections warn when degenerated, anything else is a
ValueError; the input is then handed to `neuron2gfx` with the caller's
options (including `random_ids`, which `neuron2gfx` accepts but never
reads).  The result pairs the warnings of `add_neurons` itself with the
conversion result. -/
def add_neurons (ext : Ext) (x : AddInput) (kw : Kwargs) :
    Except String (List String × (List Visual × List String)) :=
  match x with
  | .other ty => .error ("Input must be a navis Neuron/List, got " ++ ty)
  | .neuron n =>
    match neuron2gfx ext [n] kw with
    | .error e => .error e
    | .ok r => .ok ([], r)
  | .nlist ns =>
    let warns := if hasDupIds ns then [dupWarnMsg] else []
    match neuron2gfx ext ns kw with
    | .error e => .error e
    | .ok r => .ok (warns, r)

/-- The node id has a row in the node table. -/
def nodeResolvable (nodes : List Node) (nid : Nat) : Bool :=
  (nodes.find? (fun n => n.node_id == nid)).isSome

/-- Every node id of every segment has a row in the node table. -/
def segsResolvable (nodes : List Node) (segs : List (List Nat)) : Bool :=
  segs.all (fun s => s.all (nodeResolvable nodes))

/-- Every node id of every segment has a per-vertex colour row. -/
def segColorsResolvable (nodes : List Node) (rows : List Color)
    (segs : List (List Nat)) : Bool :=
  segs.all (fun s => s.all (fun nid =>
    match nodes.findIdx? (fun n => n.node_id == nid) with
    | some i => decide (i < rows.length)
    | none => false))

/-- The neurite-line build of `skeleton2gfx` can resolve all its lookups. -/
def lineResolvable (t : TreeData) : NColor → Bool
  | .flat _ => segsResolvable t.nodes t.segments
  | .perVertex rows =>
    segsResolvable t.nodes t.segments && segColorsResolvable t.nodes rows t.segments

/-- The soma colour of node `s` can be resolved under colour `c`. -/
def somaColorOk (t : TreeData) (c : NColor) (s : Nat) : Bool :=
  match c with
  | .flat _ => true
  | .perVertex rows =>
    match t.nodes.findIdx? (fun n => n.node_id == s) with
    | some i => decide (i < rows.length)
    | none => false

/-- Every reported (non-None) soma can be resolved. -/
def somasResolvable (t : TreeData) (c : NColor) : Bool :=
  t.soma.reduceOption.all (fun s => nodeResolvable t.nodes s && somaColorOk t c s)

/-- The `i`-th resolved colour entry (total lookup; only used under the
hypothesis that the colormap has one entry per neuron). -/
def colorAt (cm : List NColor) (i : Nat) : NColor :=
  (cm.get? i).getD (.flat [])

/-- The per-neuron loop written with explicit positional indexing: the
neuron at position `i` is converted with the `i`-th resolved colour entry
and the `i`-th fresh uuid.  This is the statement-side rendering of the
batch contract; `neuron2gfx` is proved to refine it. -/
def convertEachFrom (ext : Ext) (kw : Kwargs) (colormap : List NColor) :
    Nat → List Neuron → Except String (List Visual × List String)
  | _, [] => .ok ([], [])
  | i, n :: rest =>
    match convertOne ext kw n (colorAt colormap i) (ext.uuids i) with
    | .error e => .error e
    | .ok (v1, w1) =>
      match convertEachFrom ext kw colormap (i + 1) rest with
      | .error e => .error e
      | .ok (v2, w2) => .ok (v1 ++ v2, w1 ++ w2)

/-- `convertEachFrom` started at position 0. -/
def convertEach (ext : Ext) (kw : Kwargs) (colormap : List NColor)
    (x : List Neuron) : Except String (List Visual × List String) :=
  convertEachFrom ext kw colormap 0 x

/-- Concrete external services used by the evaluated examples. -/
def extC : Ext :=
  { prepareColormap := fun x _ => x.map (fun _ => .flat [1, 0, 0, 1]),
    vertexColors := fun x _ => x.map (fun _ => .flat [0, 1, 0, 1]),
    alphaColors := fun x _ => x.map (fun _ => [[0, 0, 0, 1]]),
    tree2mesh := fun _ => { verts := [[0, 0, 0]], faces := [(0, 0, 0)] },
    uuids := fun i => i + 101,
    defaultLayout := { display := "circles", size := none, colors := [] } }

/-- An empty `synapse_layout` override. -/
def layO : LayoutOverride := { display := none, size := none, colors := [] }

/-- Default keyword arguments for the evaluated examples. -/
def kwC : Kwargs :=
  { connectors := false, connectors_only := false, soma := true, radius := false,
    random_ids := false, color_by := none, shade_by := none, palette := none,
    synapse_layout := layO, cn_colors := .nonec, linewidth := 2 }

/-- A concrete skeleton node at the origin with radius 3. -/
def nodeA : Node := { node_id := 1, x := 0, y := 0, z := 0, radius := 3 }

/-- A concrete skeleton node at `(1, 0, 0)`. -/
def nodeB : Node := { node_id := 2, x := 1, y := 0, z := 0, radius := 1 }

/-- A concrete connector at `(0, 0, 1)` owned by node 1. -/
def cnA : Connector := { cn_type := 0, x := 0, y := 0, z := 1, node_id := 1 }

/-- A concrete 2-node skeleton with one soma at node 1. -/
def treeC : TreeData :=
  { nodes := [nodeA, nodeB], segments := [[1, 2]], soma := [some 1],
    somaRadius := .attr }

/-- A concrete tree neuron carrying one connector. -/
def neuronT : Neuron :=
  { id := 5, name := some "t", data := .tree treeC, connectors := [cnA] }

/-- A concrete non-empty mesh. -/
def meshC : MeshData :=
  { verts := [[0, 0, 0], [1, 0, 0], [0, 1, 0]], faces := [(0, 1, 2)] }

/-- A concrete mesh neuron carrying one connector. -/
def neuronM : Neuron :=
  { id := 6, name := some "m", data := .mesh meshC, connectors := [cnA] }

/-- A concrete neuron of an unrecognised variant, without connectors. -/
def neuronU : Neuron :=
  { id := 7, name := some "u", data := .unknown "CustomNeuron", connectors := [] }

/-- A second unrecognised-variant neuron with the same identifier. -/
def neuronU2 : Neuron := { neuronU with name := some "u2" }

/-- A skeleton reporting ten somas. -/
def treeTen : TreeData :=
  { nodes := [nodeA, nodeB], segments := [[1, 2]],
    soma := List.replicate 10 (some 1), somaRadius := .scalar 1 }

/-- A tree neuron whose skeleton reports ten somas. -/
def neuronTen : Neuron :=
  { id := 8, name := some "big", data := .tree treeTen, connectors := [] }

/-- Keyword arguments selecting the unsupported "triangles" connector mode. -/
def kwTri : Kwargs :=
  { kwC with synapse_layout := { display := some "triangles", size := none, colors := [] } }

/-- Keyword arguments selecting the "lines" connector mode. -/
def kwLines : Kwargs :=
  { kwC with synapse_layout := { display := some "lines", size := none, colors := [] } }

/-- Keyword arguments requesting connectors. -/
def kwConn : Kwargs := { kwC with connectors := true }

/-- Keyword arguments requesting attribute-driven colour without a palette. -/
def kwCB : Kwargs := { kwC with color_by := some "label" }

/-- Keyword arguments opting into randomised identifiers. -/
def kwRand : Kwargs := { kwC with random_ids := true }

/-- The connector visual produced for the mesh neuron under the unsupported
"triangles" mode. -/
def visTriM : Visual :=
  { geometry := .points [[0, 0, 1]] 100, color := .flat [1/10, 1/10, 1/10],
    object_type := "neuron", neuron_part := "connectors", neuron_id := 6,
    name := "m", object_id := some 7, source := some neuronM }

/-- The connector visual the code produces for the tree neuron in "lines"
mode: a line visual carrying no coordinate data. -/
def visLinesT : Visual :=
  { geometry := .line none 2, color := .flat [1/10, 1/10, 1/10],
    object_type := "neuron", neuron_part := "connectors", neuron_id := 5,
    name := "t", object_id := some 9, source := some neuronT }

/-- The neurite mesh visual of the evaluated mesh-neuron run. -/
def visMeshW : Visual :=
  { geometry := .mesh, color := .flat [1, 0, 0, 1], object_type := "neuron",
    neuron_part := "neurites", neuron_id := 6, name := "m",
    object_id := some 101, source := some neuronM }

/-- The connector points visual of the evaluated mesh-neuron run. -/
def visPtsW : Visual :=
  { geometry := .points [[0, 0, 1]] 100, color := .flat [1/10, 1/10, 1/10],
    object_type := "neuron", neuron_part := "connectors", neuron_id := 6,
    name := "m", object_id := some 101, source := some neuronM }

end ONP

namespace ONP

/-- C6: flattening the two 2-point segments `[[0,0,0],[1,0,0]]` and
`[[2,0,0],[3,0,0]]` yields exactly 6 rows with NaN break rows at indices 2
and 5 and the segment points in order at the remaining indices; for any
per-point colour rows of the same shape the produced colour sequence has
the same length with break rows at the same indices (the break row width is
the colour block's own row width). -/
theorem flatten_two_segments_round_trip :
    flattenSegments [[[0, 0, 0], [1, 0, 0]], [[2, 0, 0], [3, 0, 0]]] =
      [toF [0, 0, 0], toF [1, 0, 0], nanRow 3,
       toF [2, 0, 0], toF [3, 0, 0], nanRow 3] ∧
    ∀ a b c d : Color,
      flattenVertexColors [[a, b], [c, d]] =
        [toF a, toF b, nanRow a.length, toF c, toF d, nanRow c.length] := by
  constructor
  · rfl
  · intro a b c d
    simp [flattenVertexColors, blockWidth]

/-- `mapME` succeeds when every input maps to an ok value satisfying `P`;
every output satisfies `P` and the output of every listed input is a
member of the result. -/
theorem mapME_ok {α β : Type} (f : α → Except String β) (P : β → Prop)
    (l : List α) (h : ∀ a ∈ l, ∃ b, f a = .ok b ∧ P b) :
    ∃ bs, mapME f l = .ok bs ∧ (∀ b ∈ bs, P b) ∧
      ∀ a ∈ l, ∀ b, f a = .ok b → b ∈ bs := by
  induction l with
  | nil => exact ⟨[], rfl, by simp, by simp⟩
  | cons a l ih =>
    obtain ⟨b, hb, hPb⟩ := h a (by simp)
    obtain ⟨bs, hbs, hP, hmem⟩ := ih (fun a' ha' => h a' (by simp [ha']))
    refine ⟨b :: bs, by simp [mapME, hb, hbs], ?_, ?_⟩
    · intro b' hb'
      rcases List.mem_cons.1 hb' with h1 | h1
      · exact h1 ▸ hPb
      · exact hP b' h1
    · intro a' ha' b' hb'
      rcases List.mem_cons.1 ha' with h1 | h1
      · subst h1
        rw [hb] at hb'
        cases hb'
        exact List.mem_cons_self b bs
      · exact List.mem_cons_of_mem _ (hmem a' h1 b' hb')

/-- Every member of a successful `mapME` result is the image of a listed
input. -/
theorem mapME_mem_of_ok {α β : Type} (f : α → Except String β) (P : β → Prop)
    (l : List α) (bs : List β) (h : mapME f l = .ok bs)
    (hf : ∀ a ∈ l, ∀ b, f a = .ok b → P b) : ∀ b ∈ bs, P b := by
  induction l generalizing bs with
  | nil =>
    cases h
    simp
  | cons a l ih =>
    unfold mapME at h
    cases hfa : f a with
    | error e => rw [hfa] at h; cases h
    | ok b =>
      rw [hfa] at h
      cases hrec : mapME f l with
      | error e => rw [hrec] at h; cases h
      | ok bs' =>
        rw [hrec] at h
        cases h
        intro b' hb'
        rcases List.mem_cons.1 hb' with h1 | h1
        · exact h1 ▸ hf a (by simp) b hfa
        · exact ih bs' hrec (fun a' ha' => hf a' (by simp [ha'])) b' h1

/-- A resolvable node id makes `lookupNode` succeed. -/
theorem lookupNode_ok (nodes : List Node) (nid : Nat)
    (h : nodeResolvable nodes nid = true) :
    ∃ n, lookupNode nodes nid = .ok n ∧
      nodes.find? (fun m => m.node_id == nid) = some n := by
  unfold nodeResolvable at h
  cases hf : nodes.find? (fun m => m.node_id == nid) with
  | none => rw [hf] at h; cases h
  | some n => exact ⟨n, by simp [lookupNode, hf], rfl⟩

/-- A fully resolvable segment yields its coordinate rows. -/
theorem segCoordsOf_ok (nodes : List Node) (seg : List Nat)
    (h : seg.all (nodeResolvable nodes) = true) :
    ∃ rows, segCoordsOf nodes seg = .ok rows := by
  unfold segCoordsOf
  obtain ⟨rows, hrows, -, -⟩ := mapME_ok
    (fun nid =>
      match lookupNode nodes nid with
      | .error e => .error e
      | .ok n => .ok [n.x, n.y, n.z])
    (fun _ => True) seg (by
    intro nid hnid
    obtain ⟨n, hn, -⟩ := lookupNode_ok nodes nid ((List.all_eq_true.1 h) nid hnid)
    exact ⟨[n.x, n.y, n.z], by simp [hn], trivial⟩)
  exact ⟨rows, hrows⟩

/-- A fully colour-resolvable segment yields its colour rows. -/
theorem segColorsOf_ok (nodes : List Node) (rows : List Color) (seg : List Nat)
    (h : seg.all (fun nid =>
      match nodes.findIdx? (fun n => n.node_id == nid) with
      | some i => decide (i < rows.length)
      | none => false) = true) :
    ∃ cs, segColorsOf nodes rows seg = .ok cs := by
  unfold segColorsOf
  obtain ⟨cs, hcs, -, -⟩ := mapME_ok
    (fun nid =>
      match nodes.findIdx? (fun n => n.node_id == nid) with
      | some i =>
        match rows.get? i with
        | some c => .ok c
        | none => .error "IndexError: node colors"
      | none => .error ("KeyError: " ++ toString nid))
    (fun _ => True) seg (by
    intro nid hnid
    have hx := (List.all_eq_true.1 h) nid hnid
    cases hfi : nodes.findIdx? (fun n => n.node_id == nid) with
    | none => rw [hfi] at hx; cases hx
    | some i =>
      rw [hfi] at hx
      have hi : i < rows.length := of_decide_eq_true hx
      exact ⟨rows[i], by simp [hfi, List.getElem?_eq_getElem hi], trivial⟩)
  exact ⟨cs, hcs⟩

/-- When all lookups resolve, the neurite-line build succeeds and passes
the flattened coordinates to `lines2gfx`. -/
theorem skeletonLine_ok (kw : Kwargs) (t : TreeData) (c : NColor)
    (h : lineResolvable t c = true) :
    ∃ coords, skeletonLine kw t c = .ok (lines2gfx (some coords) kw.linewidth c) := by
  cases c with
  | flat col =>
    unfold lineResolvable segsResolvable at h
    obtain ⟨blocks, hb, -, -⟩ := mapME_ok (segCoordsOf t.nodes) (fun _ => True) t.segments
      (fun s hs => ((segCoordsOf_ok t.nodes s ((List.all_eq_true.1 h) s hs)).imp
        (fun rows hr => ⟨hr, trivial⟩)))
    exact ⟨flattenSegments blocks, by simp [skeletonLine, hb]⟩
  | perVertex rows =>
    unfold lineResolvable at h
    rw [Bool.and_eq_true] at h
    obtain ⟨h1, h2⟩ := h
    unfold segsResolvable at h1
    unfold segColorsResolvable at h2
    obtain ⟨blocks, hb, -, -⟩ := mapME_ok (segCoordsOf t.nodes) (fun _ => True) t.segments
      (fun s hs => ((segCoordsOf_ok t.nodes s ((List.all_eq_true.1 h1) s hs)).imp
        (fun r hr => ⟨hr, trivial⟩)))
    obtain ⟨cbs, hcb, -, -⟩ := mapME_ok (segColorsOf t.nodes rows) (fun _ => True) t.segments
      (fun s hs => ((segColorsOf_ok t.nodes rows s ((List.all_eq_true.1 h2) s hs)).imp
        (fun r hr => ⟨hr, trivial⟩)))
    exact ⟨flattenSegments blocks, by simp [skeletonLine, hb, hcb]⟩

/-- A nonempty node table is not `isEmpty`. -/
theorem nodes_not_empty (t : TreeData) (h2 : 2 ≤ t.nodes.length) :
    t.nodes.isEmpty = false := by
  cases hn : t.nodes with
  | nil => rw [hn] at h2; simp at h2
  | cons a l => rfl

/-- A node table with at least two rows fails the single-node test. -/
theorem nodes_not_single (t : TreeData) (h2 : 2 ≤ t.nodes.length) :
    (t.nodes.length == 1) = false := by
  rw [beq_eq_false_iff_ne]
  omega

/-- C4: for every valid skeleton (at least two nodes, resolvable segment
lookups) reporting 10 or more somas, `skeleton2gfx` produces exactly the
neurite line primitive (with its flattened coordinates), zero soma
primitives, and logs the soma warning. -/
theorem skeleton2gfx_soma_overflow (kw : Kwargs) (neuron : Neuron) (t : TreeData)
    (ncolor : NColor) (oid : Nat)
    (h2 : 2 ≤ t.nodes.length) (hco : kw.connectors_only = false)
    (hs : kw.soma = true) (hr : lineResolvable t ncolor = true)
    (h10 : 10 ≤ t.soma.length) :
    ∃ lv, skeleton2gfx kw neuron t ncolor oid =
        .ok ([lv], [somaWarnMsg neuron t.soma.length]) ∧
      lv.neuron_part = "neurites" ∧
      ∃ coords, lv.geometry = .line (some coords) kw.linewidth := by
  obtain ⟨coords, hline⟩ := skeletonLine_ok kw t ncolor hr
  refine ⟨tagVisual (lines2gfx (some coords) kw.linewidth ncolor) "neurites" neuron oid,
    ?_, rfl, coords, rfl⟩
  simp [skeleton2gfx, skeletonSomas, nodes_not_empty t h2, nodes_not_single t h2, hco, hs, hline, h10]

/-- Witness for `skeleton2gfx_soma_overflow` at a concrete input. -/
theorem skeleton2gfx_soma_overflow_witness :
    2 ≤ treeTen.nodes.length ∧ kwC.connectors_only = false ∧ kwC.soma = true ∧
    lineResolvable treeTen (.flat [1, 0, 0, 1]) = true ∧
    10 ≤ treeTen.soma.length ∧
    ∃ lv, skeleton2gfx kwC neuronTen treeTen (.flat [1, 0, 0, 1]) 13 =
        .ok ([lv], [somaWarnMsg neuronTen treeTen.soma.length]) ∧
      lv.neuron_part = "neurites" ∧
      ∃ coords, lv.geometry = .line (some coords) kwC.linewidth :=
  ⟨by decide, rfl, rfl, by decide, by decide,
    skeleton2gfx_soma_overflow kwC neuronTen treeTen (.flat [1, 0, 0, 1]) 13
      (by decide) rfl rfl (by decide) (by decide)⟩

/-- A resolvable soma yields its sphere visual: radius exactly twice the
resolved soma radius, centred on the node's coordinates. -/
theorem somaVisual_ok (t : TreeData) (c : NColor) (s : Nat) (n : Node)
    (hfind : t.nodes.find? (fun nd => nd.node_id == s) = some n)
    (hcol : somaColorOk t c s = true) :
    ∃ sc, somaVisual t c s =
      .ok (mkVisual (.sphere (somaR t.somaRadius n * 2) n.x n.y n.z) sc) := by
  unfold somaVisual
  cases c with
  | flat col => exact ⟨.flat col, by simp [lookupNode, hfind]⟩
  | perVertex rows =>
    unfold somaColorOk at hcol
    cases hfi : t.nodes.findIdx? (fun nd => nd.node_id == s) with
    | none => rw [hfi] at hcol; cases hcol
    | some i =>
      rw [hfi] at hcol
      have hi : i < rows.length := of_decide_eq_true hcol
      exact ⟨.flat rows[i],
        by simp [hfi, List.getElem?_eq_getElem hi, lookupNode, hfind]⟩

/-- C10: for every valid skeleton whose reported somas all resolve, each
reported soma appears in the output as a sphere primitive whose geometric
radius is exactly twice the resolved soma radius (the node's radius
attribute under `SomaRadius.attr`, else the configured scalar), positioned
at the soma node's coordinates. -/
theorem skeleton2gfx_soma_sphere (kw : Kwargs) (neuron : Neuron) (t : TreeData)
    (ncolor : NColor) (oid : Nat) (s : Nat) (n : Node)
    (h2 : 2 ≤ t.nodes.length) (hco : kw.connectors_only = false)
    (hs : kw.soma = true) (hr : lineResolvable t ncolor = true)
    (h10 : t.soma.length < 10) (hres : somasResolvable t ncolor = true)
    (hmem : some s ∈ t.soma)
    (hfind : t.nodes.find? (fun nd => nd.node_id == s) = some n) :
    ∃ vs ws, skeleton2gfx kw neuron t ncolor oid = .ok (vs, ws) ∧
      ∃ v ∈ vs, v.neuron_part = "soma" ∧
        v.geometry = .sphere (somaR t.somaRadius n * 2) n.x n.y n.z := by
  obtain ⟨coords, hline⟩ := skeletonLine_ok kw t ncolor hr
  have hmem' : s ∈ t.soma.reduceOption := List.reduceOption_mem_iff.2 hmem
  obtain ⟨somas, hsomas, hP, hmemf⟩ := mapME_ok
    (fun s' =>
      match somaVisual t ncolor s' with
      | .error e => .error e
      | .ok v => .ok (tagVisual v "soma" neuron oid))
    (fun v => v.neuron_part = "soma")
    t.soma.reduceOption
    (by
      intro s' hs'
      have hx := (List.all_eq_true.1 hres) s' hs'
      rw [Bool.and_eq_true] at hx
      obtain ⟨n', hn', hfind'⟩ := lookupNode_ok t.nodes s' hx.1
      obtain ⟨sc', hsc'⟩ := somaVisual_ok t ncolor s' n' hfind' hx.2
      exact ⟨tagVisual (mkVisual (.sphere (somaR t.somaRadius n' * 2) n'.x n'.y n'.z) sc')
        "soma" neuron oid, by simp [hsc'], rfl⟩)
  obtain ⟨hfr, hfc⟩ := lookupNode_ok t.nodes s (by
    have hx := (List.all_eq_true.1 hres) s hmem'
    rw [Bool.and_eq_true] at hx
    exact hx.1)
  obtain ⟨sc, hsc⟩ := somaVisual_ok t ncolor s n hfind (by
    have hx := (List.all_eq_true.1 hres) s hmem'
    rw [Bool.and_eq_true] at hx
    exact hx.2)
  have hvmem := hmemf s hmem'
    (tagVisual (mkVisual (.sphere (somaR t.somaRadius n * 2) n.x n.y n.z) sc) "soma" neuron oid)
    (by simp [hsc])
  refine ⟨tagVisual (lines2gfx (some coords) kw.linewidth ncolor) "neurites" neuron oid :: somas,
    [], ?_, _, List.mem_cons_of_mem _ hvmem, rfl, rfl⟩
  simp [skeleton2gfx, skeletonSomas, nodes_not_empty t h2, nodes_not_single t h2, hco, hs,
    hline, Nat.not_le.2 h10, hsomas]

/-- Witness for `skeleton2gfx_soma_sphere` at a concrete input. -/
theorem skeleton2gfx_soma_sphere_witness :
    2 ≤ treeC.nodes.length ∧ kwC.connectors_only = false ∧ kwC.soma = true ∧
    lineResolvable treeC (.flat [1, 0, 0, 1]) = true ∧
    treeC.soma.length < 10 ∧ somasResolvable treeC (.flat [1, 0, 0, 1]) = true ∧
    some 1 ∈ treeC.soma ∧
    ∃ vs ws, skeleton2gfx kwC neuronT treeC (.flat [1, 0, 0, 1]) 3 = .ok (vs, ws) ∧
      ∃ v ∈ vs, v.neuron_part = "soma" ∧
        v.geometry = .sphere (somaR treeC.somaRadius nodeA * 2) nodeA.x nodeA.y nodeA.z :=
  ⟨by decide, rfl, rfl, by decide, by decide, by decide, by decide,
    skeleton2gfx_soma_sphere kwC neuronT treeC (.flat [1, 0, 0, 1]) 3 1 nodeA
      (by decide) rfl rfl (by decide) (by decide) (by decide) (by decide) rfl⟩

/-- C5: whenever an attribute-driven colour (`color_by`) is requested
without a (truthy) palette, `neuron2gfx` fails with the mandatory-palette
error — for every choice of external colour resolvers and every input, so
no colormap resolution and no per-neuron conversion is performed. -/
theorem neuron2gfx_palette_required (ext : Ext) (x : List Neuron) (kw : Kwargs)
    (hc : kw.color_by.isSome = true) (hp : truthyPalette kw.palette = false) :
    neuron2gfx ext x kw = .error paletteErrMsg := by
  simp [neuron2gfx, hc, hp]

/-- Witness for `neuron2gfx_palette_required` at a concrete input. -/
theorem neuron2gfx_palette_required_witness :
    kwCB.color_by.isSome = true ∧ truthyPalette kwCB.palette = false ∧
    neuron2gfx extC [neuronT] kwCB = .error paletteErrMsg :=
  ⟨rfl, rfl, neuron2gfx_palette_required extC [neuronT] kwCB rfl rfl⟩

/-- C3 (counterexample): for a mesh neuron with a connector the unsupported
"triangles" display mode does not raise — the converter returns a point
primitive instead, refuting the claim for mesh neurons. -/
theorem connectors2gfx_triangles_mesh_ok :
    connectors2gfx extC kwTri neuronM (.flat [1, 0, 0]) 7 = .ok [visTriM] := rfl

/-- C3 (amended): for every non-mesh neuron with connectors, a merged
connector display mode that is neither "circles" nor "lines" makes
`connectors2gfx` fail with the unknown-mode error. -/
theorem connectors2gfx_unknown_mode_error (ext : Ext) (kw : Kwargs) (neuron : Neuron)
    (ncolor : NColor) (oid : Nat)
    (hm : isMeshN neuron = false) (hcn : neuron.connectors ≠ [])
    (h1 : (mergeLayout ext.defaultLayout kw.synapse_layout).display ≠ "circles")
    (h2 : (mergeLayout ext.defaultLayout kw.synapse_layout).display ≠ "lines") :
    connectors2gfx ext kw neuron ncolor oid =
      .error ("Unknown connector display mode " ++
        (mergeLayout ext.defaultLayout kw.synapse_layout).display) := by
  have hcv : ∀ j, connectorVisual kw neuron ncolor
      (mergeLayout ext.defaultLayout kw.synapse_layout) j =
      .error ("Unknown connector display mode " ++
        (mergeLayout ext.defaultLayout kw.synapse_layout).display) := by
    intro j
    simp [connectorVisual, hm, beq_eq_false_iff_ne.2 h1, beq_eq_false_iff_ne.2 h2]
  cases hcon : neuron.connectors with
  | nil => exact absurd hcon hcn
  | cons c cs =>
    unfold connectors2gfx
    rw [hcon, List.map_cons]
    have hne : dedupFirst (c.cn_type :: List.map (fun x => x.cn_type) cs) =
        c.cn_type :: dedupFirstAux [c.cn_type] (List.map (fun x => x.cn_type) cs) := rfl
    rw [hne]
    simp [mapME, hcv]

/-- Witness for `connectors2gfx_unknown_mode_error` at a concrete input. -/
theorem connectors2gfx_unknown_mode_error_witness :
    isMeshN neuronT = false ∧ neuronT.connectors ≠ [] ∧
    (mergeLayout extC.defaultLayout kwTri.synapse_layout).display ≠ "circles" ∧
    (mergeLayout extC.defaultLayout kwTri.synapse_layout).display ≠ "lines" ∧
    connectors2gfx extC kwTri neuronT (.flat [1, 0, 0]) 8 =
      .error ("Unknown connector display mode " ++
        (mergeLayout extC.defaultLayout kwTri.synapse_layout).display) :=
  ⟨rfl, by decide, by decide, by decide,
    connectors2gfx_unknown_mode_error extC kwTri neuronT (.flat [1, 0, 0]) 8 rfl
      (by decide) (by decide) (by decide)⟩

/-- C9: for every mesh neuron with connectors, `connectors2gfx` succeeds
and produces only point primitives, whatever the configured display mode —
in particular an unrecognised mode raises no error. -/
theorem connectors2gfx_mesh_points (ext : Ext) (kw : Kwargs) (neuron : Neuron)
    (ncolor : NColor) (oid : Nat) (hm : isMeshN neuron = true) :
    ∃ vs, connectors2gfx ext kw neuron ncolor oid = .ok vs ∧
      ∀ v ∈ vs, ∃ pos size, v.geometry = .points pos size := by
  unfold connectors2gfx
  obtain ⟨bs, hbs, hP, -⟩ := mapME_ok
    (fun j =>
      match connectorVisual kw neuron ncolor (mergeLayout ext.defaultLayout kw.synapse_layout) j with
      | .error e => .error e
      | .ok v => .ok (tagVisual v "connectors" neuron oid))
    (fun v => ∃ pos size, v.geometry = .points pos size)
    (dedupFirst (neuron.connectors.map (fun c => c.cn_type)))
    (by
      intro j _
      have hcv : ∃ w, connectorVisual kw neuron ncolor
          (mergeLayout ext.defaultLayout kw.synapse_layout) j = .ok w ∧
          ∃ pos size, w.geometry = .points pos size := by
        simp only [connectorVisual, hm, Bool.or_true, if_true]
        exact ⟨_, rfl, _, _, rfl⟩
      obtain ⟨w, hw, pos, size, hg⟩ := hcv
      exact ⟨tagVisual w "connectors" neuron oid, by simp [hw], pos, size, hg⟩)
  exact ⟨bs, hbs, hP⟩

/-- Witness for `connectors2gfx_mesh_points` at a concrete input. -/
theorem connectors2gfx_mesh_points_witness :
    isMeshN neuronM = true ∧
    ∃ vs, connectors2gfx extC kwTri neuronM (.flat [0, 1, 0]) 12 = .ok vs ∧
      ∀ v ∈ vs, ∃ pos size, v.geometry = .points pos size :=
  ⟨rfl, connectors2gfx_mesh_points extC kwTri neuronM (.flat [0, 1, 0]) 12 rfl⟩

/-- C1 (code bug): for the concrete tree neuron with one connector in
"lines" mode, `connectors2gfx` builds the paired connector/node/NaN
coordinate block (second conjunct: exactly 3 rows for the single
connector) but the produced line visual carries no coordinate data — the
source computes `coords` and then calls `oc.visuals.lines2gfx` without
passing them. -/
theorem connectors2gfx_lines_coords_dropped :
    connectors2gfx extC kwLines neuronT (.flat [1, 0, 0]) 9 = .ok [visLinesT] ∧
    connectorLinesCoords [[0, 0, 1]] [[0, 0, 0]] =
      [toF [0, 0, 1], toF [0, 0, 0], nanRow 3] := ⟨rfl, rfl⟩

/-- C2 (counterexample): with `random_ids = True` and duplicate identifiers
in the collection, `add_neurons` still emits the duplicate-ID warning. -/
theorem add_neurons_warns_despite_random_ids :
    kwRand.random_ids = true ∧ hasDupIds [neuronU, neuronU2] = true ∧
    add_neurons extC (.nlist [neuronU, neuronU2]) kwRand =
      .ok ([dupWarnMsg],
        ([], ["Skipping neuron of type CustomNeuron",
              "Skipping neuron of type CustomNeuron"])) :=
  ⟨rfl, rfl, rfl⟩

/-- C2 (amended): for every collection, `add_neurons` emits the
duplicate-ID warning exactly when the collection contains duplicate
identifiers — independently of `random_ids`, which is part of `kw` and
arbitrary here — and in either case the collection is handed to
`neuron2gfx`. -/
theorem add_neurons_dup_warning_iff (ext : Ext) (ns : List Neuron) (kw : Kwargs)
    (warns : List String) (r : List Visual × List String)
    (h : add_neurons ext (.nlist ns) kw = .ok (warns, r)) :
    (warns ≠ [] ↔ hasDupIds ns = true) ∧ neuron2gfx ext ns kw = .ok r := by
  simp only [add_neurons] at h
  cases hx : neuron2gfx ext ns kw with
  | error e => rw [hx] at h; cases h
  | ok r' =>
    rw [hx] at h
    injection h with h1
    rw [Prod.mk.injEq] at h1
    obtain ⟨h1, h2⟩ := h1
    subst h2
    subst h1
    constructor
    · cases hd : hasDupIds ns with
      | false => simp [hd]
      | true => simp [hd, dupWarnMsg]
    · rfl

/-- Witness for `add_neurons_dup_warning_iff` at a concrete input. -/
theorem add_neurons_dup_warning_iff_witness :
    ([dupWarnMsg] ≠ [] ↔ hasDupIds [neuronU, neuronU2] = true) ∧
    neuron2gfx extC [neuronU, neuronU2] kwRand =
      .ok ([], ["Skipping neuron of type CustomNeuron",
                "Skipping neuron of type CustomNeuron"]) :=
  add_neurons_dup_warning_iff extC [neuronU, neuronU2] kwRand [dupWarnMsg]
    ([], ["Skipping neuron of type CustomNeuron",
          "Skipping neuron of type CustomNeuron"]) rfl

/-- With one colour entry per neuron available from position `i` on, the
loop of `neuron2gfx` never hits an IndexError and equals the explicitly
indexed loop. -/
theorem neuronLoop_eq_convertEachFrom (ext : Ext) (kw : Kwargs)
    (colormap : List NColor) (l : List Neuron) (i : Nat)
    (h : i + l.length ≤ colormap.length) :
    neuronLoop ext kw colormap i l = convertEachFrom ext kw colormap i l := by
  induction l generalizing i with
  | nil => rfl
  | cons n rest ih =>
    cases hq : colormap.get? i with
    | none =>
      have hlen := List.get?_eq_none.1 hq
      simp only [List.length_cons] at h
      omega
    | some c =>
      have hca : colorAt colormap i = c := by
        simp only [colorAt, hq, Option.getD_some]
      cases hc1 : convertOne ext kw n c (ext.uuids i) with
      | error e => simp only [neuronLoop, convertEachFrom, hq, hca, hc1]
      | ok p =>
        obtain ⟨v1, w1⟩ := p
        have hrec : neuronLoop ext kw colormap (i + 1) rest =
            convertEachFrom ext kw colormap (i + 1) rest := by
          refine ih (i + 1) ?_
          simp only [List.length_cons] at h
          omega
        simp only [neuronLoop, convertEachFrom, hq, hca, hc1, hrec]

/-- C7: when the resolved colormap has exactly one entry per neuron (and
the palette guard passes), `neuron2gfx` equals the explicitly indexed
conversion: the colormap is resolved once over the whole collection before
the loop, and the neuron at input position `i` is converted with the
`i`-th resolved colour entry and the `i`-th fresh uuid, results
concatenated in input order. -/
theorem neuron2gfx_color_alignment (ext : Ext) (x : List Neuron) (kw : Kwargs)
    (hg : (kw.color_by.isSome && !truthyPalette kw.palette) = false)
    (hlen : (resolveColormap ext x kw).length = x.length) :
    neuron2gfx ext x kw = convertEach ext kw (resolveColormap ext x kw) x := by
  unfold neuron2gfx convertEach
  rw [hg]
  simp only [Bool.false_eq_true, if_false]
  exact neuronLoop_eq_convertEachFrom ext kw _ x 0 (by omega)

/-- Witness for `neuron2gfx_color_alignment` at a concrete input. -/
theorem neuron2gfx_color_alignment_witness :
    ((kwC.color_by.isSome && !truthyPalette kwC.palette) = false) ∧
    (resolveColormap extC [neuronT, neuronM] kwC).length = [neuronT, neuronM].length ∧
    neuron2gfx extC [neuronT, neuronM] kwC =
      convertEach extC kwC (resolveColormap extC [neuronT, neuronM] kwC)
        [neuronT, neuronM] :=
  ⟨rfl, rfl, neuron2gfx_color_alignment extC [neuronT, neuronM] kwC rfl rfl⟩

/-- Every visual a successful `connectors2gfx` produces carries the given
`object_id`. -/
theorem connectors2gfx_oid (ext : Ext) (kw : Kwargs) (neuron : Neuron) (c : NColor)
    (oid : Nat) (vs : List Visual)
    (h : connectors2gfx ext kw neuron c oid = .ok vs) :
    ∀ v ∈ vs, v.object_id = some oid := by
  unfold connectors2gfx at h
  refine mapME_mem_of_ok _ _ _ vs h ?_
  intro j _ v hv
  cases hcv : connectorVisual kw neuron c (mergeLayout ext.defaultLayout kw.synapse_layout) j with
  | error e => rw [hcv] at hv; cases hv
  | ok w =>
    rw [hcv] at hv
    cases hv
    rfl

/-- Every soma visual of a successful soma block carries the given
`object_id`. -/
theorem skeletonSomas_oid (kw : Kwargs) (neuron : Neuron) (t : TreeData)
    (c : NColor) (oid : Nat) (vs : List Visual) (ws : List String)
    (h : skeletonSomas kw neuron t c oid = .ok (vs, ws)) :
    ∀ v ∈ vs, v.object_id = some oid := by
  unfold skeletonSomas at h
  by_cases hs : kw.soma = true
  · rw [if_pos hs] at h
    by_cases h10 : 10 ≤ t.soma.length
    · rw [if_pos h10] at h
      cases h
      simp
    · rw [if_neg h10] at h
      cases hsm : mapME (fun s =>
          match somaVisual t c s with
          | .error e => .error e
          | .ok v => .ok (tagVisual v "soma" neuron oid)) (t.soma.reduceOption) with
      | error e => rw [hsm] at h; cases h
      | ok somas =>
        rw [hsm] at h
        cases h
        refine mapME_mem_of_ok _ _ _ _ hsm ?_
        intro s _ v hv
        cases hsv : somaVisual t c s with
        | error e => rw [hsv] at hv; cases hv
        | ok w =>
          rw [hsv] at hv
          cases hv
          rfl
  · rw [if_neg hs] at h
    cases h
    simp

/-- Every visual a successful `skeleton2gfx` produces carries the given
`object_id`. -/
theorem skeleton2gfx_oid (kw : Kwargs) (neuron : Neuron) (t : TreeData)
    (c : NColor) (oid : Nat) (vs : List Visual) (ws : List String)
    (h : skeleton2gfx kw neuron t c oid = .ok (vs, ws)) :
    ∀ v ∈ vs, v.object_id = some oid := by
  unfold skeleton2gfx at h
  by_cases he : t.nodes.isEmpty = true
  · rw [if_pos he] at h
    cases h
    simp
  · rw [if_neg he] at h
    by_cases h1 : (t.nodes.length == 1) = true
    · rw [if_pos h1] at h
      cases h
      simp
    · rw [if_neg h1] at h
      by_cases hco : kw.connectors_only = true
      · rw [if_pos hco] at h
        cases h
        simp
      · rw [if_neg hco] at h
        cases hsl : skeletonLine kw t c with
        | error e => rw [hsl] at h; cases h
        | ok lv =>
          rw [hsl] at h
          cases hsm : skeletonSomas kw neuron t c oid with
          | error e => rw [hsm] at h; cases h
          | ok p =>
            obtain ⟨somas, ws'⟩ := p
            rw [hsm] at h
            cases h
            intro v hv
            rcases List.mem_cons.1 hv with hv1 | hv1
            · subst hv1; rfl
            · exact skeletonSomas_oid kw neuron t c oid somas ws hsm v hv1

/-- Every visual a successful `dotprop2gfx` produces carries the given
`object_id`. -/
theorem dotprop2gfx_oid (kw : Kwargs) (neuron : Neuron) (d : DotpropData)
    (c : NColor) (oid : Nat) (vs : List Visual) (ws : List String)
    (h : dotprop2gfx kw neuron d c oid = .ok (vs, ws)) :
    ∀ v ∈ vs, v.object_id = some oid := by
  unfold dotprop2gfx at h
  by_cases hp : d.points.isEmpty = true
  · rw [if_pos hp] at h
    cases h
    simp
  · rw [if_neg hp] at h
    exact skeleton2gfx_oid kw _ d.derived c oid vs ws h

/-- Every visual a successful variant dispatch produces carries the given
`object_id`. -/
theorem dispatchNeuron_oid (kw : Kwargs) (neuron : Neuron) (c : NColor)
    (oid : Nat) (vs : List Visual) (ws : List String)
    (h : dispatchNeuron kw neuron c oid = .ok (vs, ws)) :
    ∀ v ∈ vs, v.object_id = some oid := by
  unfold dispatchNeuron at h
  by_cases hco : kw.connectors_only = true
  · rw [if_pos hco] at h
    cases h
    simp
  · rw [if_neg hco] at h
    cases hnd : neuron.data with
    | tree t =>
      rw [hnd] at h
      exact skeleton2gfx_oid kw neuron t c oid vs ws h
    | mesh m =>
      rw [hnd] at h
      cases h
      intro v hv
      unfold mesh2gfx at hv
      by_cases hf : m.faces.isEmpty = true
      · rw [if_pos hf] at hv; cases hv
      · rw [if_neg hf] at hv
        rcases List.mem_singleton.1 hv with rfl
        rfl
    | dotprops d =>
      rw [hnd] at h
      exact dotprop2gfx_oid kw neuron d c oid vs ws h
    | voxels vx =>
      rw [hnd] at h
      cases h
      intro v hv
      rcases List.mem_singleton.1 hv with rfl
      rfl
    | unknown ty =>
      rw [hnd] at h
      cases h
      simp

/-- Every visual a successful loop iteration produces carries the fresh
`object_id` drawn for that iteration. -/
theorem convertOne_oid (ext : Ext) (kw : Kwargs) (n : Neuron) (c : NColor)
    (oid : Nat) (vs : List Visual) (ws : List String)
    (h : convertOne ext kw n c oid = .ok (vs, ws)) :
    ∀ v ∈ vs, v.object_id = some oid := by
  simp only [convertOne] at h
  cases hd : dispatchNeuron kw (applyRadius ext kw n) c oid with
  | error e => rw [hd] at h; cases h
  | ok p =>
    obtain ⟨v1, w1⟩ := p
    simp only [hd] at h
    by_cases hc : ((kw.connectors || kw.connectors_only) &&
        !(applyRadius ext kw n).connectors.isEmpty) = true
    · rw [if_pos hc] at h
      cases hcn : connectors2gfx ext kw (applyRadius ext kw n) c oid with
      | error e => rw [hcn] at h; cases h
      | ok v2 =>
        rw [hcn] at h
        cases h
        intro v hv
        rcases List.mem_append.1 hv with h1 | h1
        · exact dispatchNeuron_oid kw (applyRadius ext kw n) c oid v1 ws hd v h1
        · exact connectors2gfx_oid ext kw (applyRadius ext kw n) c oid v2 hcn v h1
    · rw [if_neg hc] at h
      cases h
      exact dispatchNeuron_oid kw (applyRadius ext kw n) c oid vs ws hd

/-- A successful loop run splits into one visual group per neuron, the
`j`-th group carrying the `j`-th fresh uuid. -/
theorem neuronLoop_groups (ext : Ext) (kw : Kwargs) (colormap : List NColor)
    (l : List Neuron) (i0 : Nat) (vs : List Visual) (ws : List String)
    (h : neuronLoop ext kw colormap i0 l = .ok (vs, ws)) :
    ∃ groups : List (List Visual), vs = groups.flatten ∧
      groups.length = l.length ∧
      ∀ j (hj : j < groups.length), ∀ v ∈ groups.get ⟨j, hj⟩,
        v.object_id = some (ext.uuids (i0 + j)) := by
  induction l generalizing i0 vs ws with
  | nil =>
    cases h
    exact ⟨[], rfl, rfl, fun j hj => by simp at hj⟩
  | cons n rest ih =>
    unfold neuronLoop at h
    cases hq : colormap.get? i0 with
    | none => rw [hq] at h; cases h
    | some c =>
      simp only [hq] at h
      cases h1 : convertOne ext kw n c (ext.uuids i0) with
      | error e => rw [h1] at h; cases h
      | ok p =>
        obtain ⟨v1, w1⟩ := p
        simp only [h1] at h
        cases h2 : neuronLoop ext kw colormap (i0 + 1) rest with
        | error e => rw [h2] at h; cases h
        | ok q =>
          obtain ⟨v2, w2⟩ := q
          simp only [h2] at h
          cases h
          obtain ⟨groups, hflat, hlen, hP⟩ := ih (i0 + 1) v2 w2 h2
          refine ⟨v1 :: groups, by simp [hflat], by simp [hlen], ?_⟩
          intro j hj v hv
          cases j with
          | zero =>
            rw [Nat.add_zero]
            exact convertOne_oid ext kw n c (ext.uuids i0) v1 w1 h1 v hv
          | succ j' =>
            have hj' : j' < groups.length := by simpa using hj
            have hx := hP j' hj' v hv
            rw [show i0 + (j' + 1) = i0 + 1 + j' by omega]
            exact hx

/-- C8: every visual a successful `neuron2gfx` run produces carries a
non-empty `object_id`; the output splits into one group per input neuron,
in order, and all visuals of the `j`-th group (neurites, somas, meshes,
volumes, connectors of the neuron at position `j`) share the `j`-th fresh
uuid as their `object_id`. -/
theorem neuron2gfx_object_id_grouping (ext : Ext) (x : List Neuron) (kw : Kwargs)
    (vs : List Visual) (ws : List String)
    (h : neuron2gfx ext x kw = .ok (vs, ws)) :
    ∃ groups : List (List Visual), vs = groups.flatten ∧
      groups.length = x.length ∧
      ∀ j (hj : j < groups.length), ∀ v ∈ groups.get ⟨j, hj⟩,
        v.object_id = some (ext.uuids j) ∧ v.object_id ≠ none := by
  unfold neuron2gfx at h
  by_cases hg : (kw.color_by.isSome && !truthyPalette kw.palette) = true
  · rw [if_pos hg] at h
    cases h
  · rw [if_neg hg] at h
    obtain ⟨groups, hflat, hlen, hP⟩ := neuronLoop_groups ext kw _ x 0 vs ws h
    refine ⟨groups, hflat, hlen, ?_⟩
    intro j hj v hv
    have hx := hP j hj v hv
    rw [Nat.zero_add] at hx
    exact ⟨hx, by rw [hx]; exact Option.some_ne_none _⟩

/-- Witness for `neuron2gfx_object_id_grouping` at a concrete input: the
mesh neuron's neurite mesh and its connector points share uuid 101. -/
theorem neuron2gfx_object_id_grouping_witness :
    ∃ groups : List (List Visual), [visMeshW, visPtsW] = groups.flatten ∧
      groups.length = [neuronM].length ∧
      ∀ j (hj : j < groups.length), ∀ v ∈ groups.get ⟨j, hj⟩,
        v.object_id = some (extC.uuids j) ∧ v.object_id ≠ none :=
  neuron2gfx_object_id_grouping extC [neuronM] kwConn [visMeshW, visPtsW] [] rfl

end ONP
